import Mathlib

/-!
AlianzaDocs: WebSocket room handlers, error middleware and docs search

A shallow embedding of

* `ai-call-intelligence-suite/backend/src/index.js`: the three socket handlers
  registered inside `io.on('connection', ...)` and the Express error-handling
  middleware;
* `docs/html/js/main.js`: `performSearch`, `getHeadingContext` and
  `generateTOC`.

Handlers are pure functions from the state they read (the room table, the
clock, the environment) to the state they leave and the messages they send.
-/

namespace AlianzaDocs

/-! ## JavaScript values -/

/-- The JavaScript values a message field or an error property can hold here:
`undefined` (also what reading an absent property gives), `null`, booleans,
strings, and the numbers that are safe integers, those of absolute value below
`2 ^ 53`, which are the integers a JavaScript number holds exactly. -/
inductive JSVal where
  | undefined
  | null
  | bool (b : Bool)
  | num (n : Int) (safe : n.natAbs < 2 ^ 53)
  | str (s : String)
deriving DecidableEq, Repr

/-- String conversion as performed by a template literal `${v}`. A safe integer
is printed in decimal (the exponent form starts at `1e21`, beyond them). -/
def JSVal.toStr : JSVal → String
  | .undefined => "undefined"
  | .null => "null"
  | .bool true => "true"
  | .bool false => "false"
  | .num n _ => toString n
  | .str s => s

/-- Truthiness, as tested by `||` and `?:`. -/
def JSVal.truthy : JSVal → Bool
  | .undefined => false
  | .null => false
  | .bool b => b
  | .num n _ => n != 0
  | .str s => s != ""

/-- The JavaScript expression `a || b`. -/
def JSVal.lor (a b : JSVal) : JSVal :=
  if a.truthy then a else b

/-- Errors a handler can throw. -/
inductive JSError where
  | typeError
deriving DecidableEq, Repr

/-! ## The room table -/

abbrev SocketId := String

abbrev Room := String

/-- Modelled from the spec: the membership table of the socket.io server, which
is library state and not part of the sources. The spec calls it "the
connection↔room membership graph" and "a mapping from account identifier to set
of connection identifiers": the set of pairs (connection, room) such that the
connection is a member of the room. A room without members is the same as an
absent room. -/
abbrev Hub := Finset (SocketId × Room)

/-- Modelled from the spec: `socket.join(room)` of socket.io, "idempotently adds
the connection to the room (creating the room if absent)". -/
def Hub.join (h : Hub) (id : SocketId) (room : Room) : Hub :=
  insert (id, room) h

/-- Modelled from the spec: `socket.leave(room)` of socket.io, "idempotently
removes the connection from that room. No-op, not an error, if the connection
was not a member". -/
def Hub.leave (h : Hub) (id : SocketId) (room : Room) : Hub :=
  h.erase (id, room)

/-- Modelled from the spec: what socket.io does to the table when a connection
closes, "removes the connection from all rooms it belonged to". -/
def Hub.leaveAll (h : Hub) (id : SocketId) : Hub :=
  h.filter (fun e => e.1 ≠ id)

/-- The members of a room. -/
def Hub.members (h : Hub) (room : Room) : Finset SocketId :=
  (h.filter (fun e => e.2 = room)).image Prod.fst

/-- The rooms a connection is a member of. -/
def Hub.roomsOf (h : Hub) (id : SocketId) : Finset Room :=
  (h.filter (fun e => e.1 = id)).image Prod.snd

/-! ## Messages and logs -/

/-- The argument `data` of a socket handler: either `undefined`/`null`, on which
a property read throws, or a value whose `accountId` property reads as given
(`undefined` when the property is absent). -/
inductive Data where
  | nullish
  | obj (accountId : JSVal)
deriving DecidableEq, Repr

/-- The expression `data.accountId`. -/
def Data.accountId : Data → Except JSError JSVal
  | .nullish => .error .typeError
  | .obj a => .ok a

/-- The payload of the `'subscribed'` acknowledgment. -/
structure Ack where
  success : Bool
  accountId : JSVal
  timestamp : String
deriving DecidableEq, Repr

/-- One `socket.emit(event, payload)`: a message to one connection. -/
structure Emit where
  recipient : SocketId
  event : String
  payload : Ack
deriving DecidableEq, Repr

/-- One call of the logger. -/
structure LogEntry where
  level : String
  message : String
  meta : List (String × JSVal)
deriving DecidableEq, Repr

/-- What a handler leaves behind: the room table, the messages emitted and the
log lines written, both in order. -/
structure Outcome where
  hub : Hub
  emitted : List Emit
  logged : List LogEntry
deriving DecidableEq

/-- The room name of an account, the template literal
`account:${data.accountId}`. -/
def accountRoom (accountId : JSVal) : Room :=
  "account:" ++ accountId.toStr

/-! ## The socket handlers of `index.js` -/

/-- The handler of `'subscribe:call-events'` (index.js, lines 90-104) on the
socket `socketId`, with `now` the value of `new Date().toISOString()`. -/
def subscribeCallEvents (h : Hub) (socketId : SocketId) (now : String) (data : Data) :
    Except JSError Outcome := do
  let logged ← data.accountId
  let entry : LogEntry :=
    ⟨"info", "Client subscribed to call events",
      [("socketId", .str socketId), ("accountId", logged)]⟩
  let joined ← data.accountId
  let hub := h.join socketId (accountRoom joined)
  let echoed ← data.accountId
  pure ⟨hub, [⟨socketId, "subscribed", ⟨true, echoed, now⟩⟩], [entry]⟩

/-- The handler of `'unsubscribe:call-events'` (index.js, lines 107-113). -/
def unsubscribeCallEvents (h : Hub) (socketId : SocketId) (data : Data) :
    Except JSError Outcome := do
  let left ← data.accountId
  let hub := h.leave socketId (accountRoom left)
  let logged ← data.accountId
  pure ⟨hub, [],
    [⟨"info", "Client unsubscribed from call events",
      [("socketId", .str socketId), ("accountId", logged)]⟩]⟩

/-- The handler of `'disconnect'` (index.js, lines 116-118): it only logs. -/
def disconnect (h : Hub) (socketId : SocketId) : Outcome :=
  ⟨h, [], [⟨"info", "WebSocket client disconnected", [("socketId", .str socketId)]⟩]⟩

/-- Modelled from the spec: `onDisconnect(ConnectionHandle)`, the close path of
socket.io, which is library code and not part of the sources. It "removes the
connection from all rooms it belonged to" and then fires the `'disconnect'`
event, whose handler is `disconnect`. -/
def onDisconnect (h : Hub) (socketId : SocketId) : Outcome :=
  disconnect (h.leaveAll socketId) socketId

/-- The fan-out message `{accountId, payload, timestamp}` as received by one
connection. -/
structure Delivery (P : Type) where
  recipient : SocketId
  accountId : String
  payload : P
  timestamp : String
deriving DecidableEq

/-- Modelled from the spec: `publish(accountId, payload)`, for which the sources
have no caller and no implementation ("no publisher exists in this snapshot").
It "delivers `payload` to every connection currently subscribed to `accountId`",
one fan-out message per current member of the account's room; a room without
members yields no message. -/
def publish {P : Type} (h : Hub) (now : String) (accountId : String) (payload : P) :
    Multiset (Delivery P) :=
  (h.members (accountRoom (.str accountId))).val.map
    (fun c => ⟨c, accountId, payload, now⟩)

/-- The connections reached by a publish, with multiplicity. -/
def receivers {P : Type} (ds : Multiset (Delivery P)) : Multiset SocketId :=
  ds.map (fun d => d.recipient)

/-! ## The error-handling middleware of `index.js` -/

/-- The properties the middleware reads from the error passed to it, each
`undefined` when the error does not have it. -/
structure ErrorValue where
  message : JSVal
  status : JSVal
  stack : JSVal
deriving DecidableEq, Repr

/-- The object under the key `error` of the JSON body. -/
structure ErrorBody where
  message : JSVal
  status : JSVal
  timestamp : String
deriving DecidableEq, Repr

/-- The call `res.status(status).json({ error })` made by the middleware: the
argument of `res.status` and the object under the key `error` of the argument
of `res.json`. -/
structure JsonCall where
  status : JSVal
  error : ErrorBody
deriving DecidableEq, Repr

/-- What the client receives: either the response written by
`res.status(status).json({ error })`, with the status code of its status line
and the error object handed to `res.json`, or, when that call throws, the
answer of the final handler of Express, which has the status code 500 and no
JSON error body. -/
inductive Reply where
  | json (statusCode : Int) (error : ErrorBody)
  | uncaught
deriving DecidableEq, Repr

/-- The status code of the status line the client receives. -/
def Reply.statusCode : Reply → Int
  | .json statusCode _ => statusCode
  | .uncaught => 500

/-- The JSON error body the client receives, if any. -/
def Reply.error? : Reply → Option ErrorBody
  | .json _ error => some error
  | .uncaught => none

/-- The conversion `v | 0` of a value to a 32-bit integer. `stringToInt32` is
that conversion on strings, which goes through the number parser of the
engine. -/
def JSVal.toInt32 (stringToInt32 : String → Int) : JSVal → Int
  | .undefined => 0
  | .null => 0
  | .bool b => if b then 1 else 0
  | .num n _ => (n + 2147483648) % 4294967296 - 2147483648
  | .str s => stringToInt32 s

/-- Modelled on Express 4 and the `http` module of Node, which are libraries and
not part of the sources: what `res.status(status).json({ error })` sends.
`res.status` stores its argument unchecked; when the head of the response is
written, Node converts the stored value with `statusCode |= 0` and throws
`ERR_HTTP_INVALID_STATUS_CODE` unless the result is between 100 and 999. The
exception leaves the middleware, and the final handler of Express answers with
the status 500. The request is taken to carry no cache validators
(`If-None-Match`, `If-Modified-Since`), so that `req.fresh` is false and
`res.send` leaves the stored status alone. The body recorded is the one handed
to `res.json`; that no body is written after a status line 1xx, 204 or 304 or
in answer to a `HEAD` request is not part of the model. -/
def sendJson (stringToInt32 : String → Int) (call : JsonCall) : Reply :=
  let statusCode := call.status.toInt32 stringToInt32
  if 100 ≤ statusCode ∧ statusCode ≤ 999 then .json statusCode call.error else .uncaught

/-- The error-handling middleware (index.js, lines 122-138): the log line it
writes and the call `res.status(...).json(...)` it makes. `nodeEnv` is
`process.env.NODE_ENV` (`none` when the variable is not set), `now` the value
of `new Date().toISOString()` and `path` is `req.path`. -/
def errorHandler (nodeEnv : Option String) (now : String) (path : String)
    (err : ErrorValue) : JsonCall × List LogEntry :=
  let entry : LogEntry :=
    ⟨"error", "Unhandled error",
      [("error", err.message), ("stack", err.stack), ("path", .str path)]⟩
  let body : ErrorBody :=
    ⟨if nodeEnv = some "production" then .str "Internal server error" else err.message,
      err.status.lor (.num 500 (by decide)), now⟩
  (⟨err.status.lor (.num 500 (by decide)), body⟩, [entry])

/-- What the client receives when the error-handling middleware runs: the
outcome of the call made by `errorHandler`. -/
def errorResponse (stringToInt32 : String → Int) (nodeEnv : Option String)
    (now : String) (path : String) (err : ErrorValue) : Reply :=
  sendJson stringToInt32 (errorHandler nodeEnv now path err).1

/-! ## The page search of `main.js` -/

/-- A DOM string as its sequence of UTF-16 code units, the units in which
`substring`, `includes` and `length` count. -/
abbrev DOMString := List Nat

/-- The code units of a string literal of the source (all of them ASCII). -/
def utf16 (s : String) : DOMString :=
  s.toList.map Char.toNat

/-- An element that precedes a section among the children of its parent. -/
structure Sibling where
  tagName : String
  textContent : DOMString
deriving DecidableEq, Repr

/-- An element matched by `querySelectorAll('h2, h3, p, li')`, with the chain
reached from it by `previousElementSibling`, nearest first. -/
structure Element where
  tagName : String
  textContent : DOMString
  previousSiblings : List Sibling
deriving DecidableEq, Repr

/-- One entry of the array returned by `performSearch`. -/
structure SearchResult where
  title : DOMString
  content : DOMString
  element : Element
deriving DecidableEq, Repr

/-- The test `tagName.startsWith('H')`. -/
def startsWithH (tagName : String) : Bool :=
  "H".toList.isPrefixOf tagName.toList

/-- The test `text.includes(query)`: the query occurs in the text as a
contiguous run of code units. -/
def includes (text query : DOMString) : Bool :=
  decide (query <:+: text)

/-- The function `substring(0, n)` of a string. -/
def substring0 (text : DOMString) (n : Nat) : DOMString :=
  text.take n

/-- The loop of `getHeadingContext` over the previous siblings (main.js, lines
210-214): the text of the nearest one whose tag name starts with `H`, or
`'Search Result'`. -/
def headingContextLoop : List Sibling → DOMString
  | [] => utf16 "Search Result"
  | heading :: rest =>
    if startsWithH heading.tagName then heading.textContent else headingContextLoop rest

/-- The function `getHeadingContext` (main.js, lines 209-215). -/
def getHeadingContext (element : Element) : DOMString :=
  headingContextLoop element.previousSiblings

/-- The body of the `forEach` callback of `performSearch` (main.js, lines
195-204): push a result when the lower-cased text includes the query. -/
def pushIfMatch (toLowerCase : DOMString → DOMString) (query : DOMString)
    (results : List SearchResult) (section_ : Element) : List SearchResult :=
  let text := toLowerCase section_.textContent
  if includes text query then
    results ++
      [⟨if startsWithH section_.tagName then section_.textContent
          else getHeadingContext section_,
        substring0 section_.textContent 150 ++ utf16 "...",
        section_⟩]
  else results

/-- The function `performSearch` (main.js, lines 191-207). `sections` is the
list returned by `document.querySelectorAll('h2, h3, p, li')`, in document
order, and `toLowerCase` is the string method of that name. -/
def performSearch (toLowerCase : DOMString → DOMString) (sections : List Element)
    (query : DOMString) : List SearchResult :=
  let results := sections.foldl (pushIfMatch toLowerCase query) []
  results.take 5

/-! ## The table of contents of `main.js` -/

/-- An element matched by `mainContent.querySelectorAll('h2, h3')`. The `id` is
the empty string when the element has none. -/
structure Heading where
  tagName : String
  id : DOMString
  textContent : DOMString
deriving DecidableEq, Repr

/-- An `li` appended to the list, with the `a` element it holds. The click
listener of the `a` is not part of the model. -/
structure TocEntry where
  className : String
  href : DOMString
  textContent : DOMString
deriving DecidableEq, Repr

/-- The `ul` created by `generateTOC`. -/
structure TocList where
  className : String
  children : List TocEntry
deriving DecidableEq, Repr

/-- What `generateTOC` reads and writes of the document: the lists appended so
far to the element with id `toc` (`none` when there is no such element), and
the `h2`/`h3` elements, in document order, under the first element of class
`main-content` and under the first element of class `docs-main` (`none` when
there is no such element), the two taken to be separate elements. -/
structure TocDocument where
  toc : Option (List TocList)
  mainContent : Option (List Heading)
  docsMain : Option (List Heading)
deriving DecidableEq, Repr

/-- The headings of `document.querySelector('.main-content') ||
document.querySelector('.docs-main')`. -/
def TocDocument.headings (doc : TocDocument) : Option (List Heading) :=
  match doc.mainContent with
  | some headings => some headings
  | none => doc.docsMain

/-- The callback of `headings.forEach` (main.js, lines 279-297) on one heading:
the heading as it is left and the `li` appended to the list. -/
def tocCallback (toLowerCase : String → String) (heading : Heading) (index : Nat) :
    Heading × TocEntry :=
  let heading : Heading :=
    if heading.id = [] then
      ⟨heading.tagName, utf16 ("heading-" ++ toString index), heading.textContent⟩
    else heading
  (heading, ⟨toLowerCase heading.tagName, utf16 "#" ++ heading.id, heading.textContent⟩)

/-- The loop `headings.forEach((heading, index) => ...)` from the index `index`
on: the headings as they are left and the children of the list, in order. -/
def tocForEach (toLowerCase : String → String) : List Heading → Nat →
    List Heading × List TocEntry
  | [], _ => ([], [])
  | heading :: rest, index =>
    let step := tocCallback toLowerCase heading index
    let done := tocForEach toLowerCase rest (index + 1)
    (step.1 :: done.1, step.2 :: done.2)

/-- The function `generateTOC` (main.js, lines 267-300), with `toLowerCase` the
string method of that name. -/
def generateTOC (toLowerCase : String → String) (doc : TocDocument) : TocDocument :=
  match doc.toc with
  | none => doc
  | some tocContainer =>
    match doc.mainContent with
    | some headings =>
      let done := tocForEach toLowerCase headings 0
      ⟨some (tocContainer ++ [⟨"toc-list", done.2⟩]), some done.1, doc.docsMain⟩
    | none =>
      match doc.docsMain with
      | none => doc
      | some headings =>
        let done := tocForEach toLowerCase headings 0
        ⟨some (tocContainer ++ [⟨"toc-list", done.2⟩]), none, some done.1⟩

/-! ## Lemmas on the room table -/

theorem Hub.mem_members (h : Hub) (room : Room) (id : SocketId) :
    id ∈ h.members room ↔ (id, room) ∈ h := by
  simp [Hub.members]

theorem Hub.mem_roomsOf (h : Hub) (id : SocketId) (room : Room) :
    room ∈ h.roomsOf id ↔ (id, room) ∈ h := by
  simp [Hub.roomsOf]

theorem Hub.mem_join (h : Hub) (id : SocketId) (room : Room) (e : SocketId × Room) :
    e ∈ h.join id room ↔ e = (id, room) ∨ e ∈ h := by
  simp [Hub.join]

theorem Hub.mem_leave (h : Hub) (id : SocketId) (room : Room) (e : SocketId × Room) :
    e ∈ h.leave id room ↔ e ≠ (id, room) ∧ e ∈ h := by
  simp [Hub.leave]

theorem Hub.mem_leaveAll (h : Hub) (id : SocketId) (e : SocketId × Room) :
    e ∈ h.leaveAll id ↔ e ∈ h ∧ e.1 ≠ id := by
  simp [Hub.leaveAll]

theorem Hub.roomsOf_join_self (h : Hub) (id : SocketId) (room : Room) :
    (h.join id room).roomsOf id = insert room (h.roomsOf id) := by
  ext r
  simp only [Hub.mem_roomsOf, Hub.mem_join, Finset.mem_insert, Prod.mk.injEq, true_and]

theorem Hub.join_join (h : Hub) (id : SocketId) (room : Room) :
    (h.join id room).join id room = h.join id room := by
  simp [Hub.join]

theorem Hub.leave_of_not_mem (h : Hub) (id : SocketId) (room : Room)
    (hne : (id, room) ∉ h) : h.leave id room = h := by
  simp [Hub.leave, hne]

/-! ## Evaluation of the handlers -/

theorem subscribeCallEvents_obj (h : Hub) (socketId : SocketId) (now : String) (a : JSVal) :
    subscribeCallEvents h socketId now (.obj a) =
      .ok ⟨h.join socketId (accountRoom a),
        [⟨socketId, "subscribed", ⟨true, a, now⟩⟩],
        [⟨"info", "Client subscribed to call events",
          [("socketId", .str socketId), ("accountId", a)]⟩]⟩ :=
  rfl

theorem subscribeCallEvents_nullish (h : Hub) (socketId : SocketId) (now : String) :
    subscribeCallEvents h socketId now .nullish = .error .typeError :=
  rfl

theorem unsubscribeCallEvents_obj (h : Hub) (socketId : SocketId) (a : JSVal) :
    unsubscribeCallEvents h socketId (.obj a) =
      .ok ⟨h.leave socketId (accountRoom a), [],
        [⟨"info", "Client unsubscribed from call events",
          [("socketId", .str socketId), ("accountId", a)]⟩]⟩ :=
  rfl

theorem unsubscribeCallEvents_nullish (h : Hub) (socketId : SocketId) :
    unsubscribeCallEvents h socketId .nullish = .error .typeError :=
  rfl

theorem accountRoom_str (s : String) : accountRoom (.str s) = "account:" ++ s :=
  rfl

/-! ## Subscribe with an empty or missing account identifier (C1) -/

/-- C1, as stated, fails: on a connection without memberships, a subscribe
message whose account identifier is the empty string is acknowledged with the
success flag `true`, not `false`, and the connection is afterwards a member of
the room `account:`, so its memberships are not what they were. -/
theorem subscribe_empty_accountId_counterexample :
    ∃ o, subscribeCallEvents ∅ "s1" "t0" (.obj (.str "")) = .ok o ∧
      o.emitted.map (fun e => e.payload.success) = [true] ∧
      o.hub.roomsOf "s1" = {"account:"} ∧
      o.hub.roomsOf "s1" ≠ (∅ : Hub).roomsOf "s1" := by
  refine ⟨_, subscribeCallEvents_obj _ _ _ _, rfl, ?_, ?_⟩
  · rw [Hub.roomsOf_join_self]
    rfl
  · rw [Hub.roomsOf_join_self]
    exact Finset.insert_ne_empty _ _

/-- C1, amended: a subscribe message whose account identifier is the empty
string or is missing returns, is answered with exactly one `'subscribed'`
acknowledgment to the subscribing connection, whose success flag is `true` and
whose `accountId` is the value received, and the memberships of the connection
afterwards are those before together with the room `account:` (empty
identifier) or `account:undefined` (missing identifier). -/
theorem subscribe_empty_or_missing_accountId (h : Hub) (socketId : SocketId) (now : String)
    (a : JSVal) (ha : a = .str "" ∨ a = .undefined) :
    ∃ o, subscribeCallEvents h socketId now (.obj a) = .ok o ∧
      o.emitted = [⟨socketId, "subscribed", ⟨true, a, now⟩⟩] ∧
      o.hub.roomsOf socketId =
        insert (if a = .undefined then "account:undefined" else "account:")
          (h.roomsOf socketId) := by
  refine ⟨_, subscribeCallEvents_obj _ _ _ _, rfl, ?_⟩
  rw [Hub.roomsOf_join_self]
  rcases ha with rfl | rfl <;> rfl

theorem subscribe_empty_or_missing_accountId_witness :
    (JSVal.undefined = .str "" ∨ JSVal.undefined = .undefined) ∧
    ∃ o, subscribeCallEvents {("s1", "account:acme")} "s1" "t0" (.obj .undefined) = .ok o ∧
      o.emitted = [⟨"s1", "subscribed", ⟨true, .undefined, "t0"⟩⟩] ∧
      o.hub.roomsOf "s1" =
        insert (if JSVal.undefined = .undefined then "account:undefined" else "account:")
          (Hub.roomsOf {("s1", "account:acme")} "s1") :=
  ⟨Or.inr rfl,
    subscribe_empty_or_missing_accountId {("s1", "account:acme")} "s1" "t0" .undefined
      (Or.inr rfl)⟩

/-! ## Subscribe is idempotent on membership (C2) -/

/-- C2: for every connection, every membership state and every account
identifier, the subscribe handler returns both times when run twice in a row,
the room table after the second run is the table after the first, and the
connection is then listed exactly once among the members of the account's
room. -/
theorem subscribe_twice_same_membership (h : Hub) (socketId : SocketId) (now later : String)
    (a : JSVal) :
    ∃ o₁ o₂, subscribeCallEvents h socketId now (.obj a) = .ok o₁ ∧
      subscribeCallEvents o₁.hub socketId later (.obj a) = .ok o₂ ∧
      o₂.hub = o₁.hub ∧
      (o₂.hub.members (accountRoom a)).val.count socketId = 1 := by
  refine ⟨_, _, subscribeCallEvents_obj _ _ _ _, subscribeCallEvents_obj _ _ _ _, ?_, ?_⟩
  · exact Hub.join_join _ _ _
  · apply Multiset.count_eq_one_of_mem (Finset.nodup _)
    rw [Finset.mem_val, Hub.mem_members, Hub.join_join, Hub.mem_join]
    exact Or.inl rfl

/-! ## Unsubscribe (C3) -/

/-- C3: for every connection and account identifier, the unsubscribe handler
returns without error and afterwards the connection is not a member of the
account's room; when the connection was not a member of that room before, the
whole room table is unchanged. -/
theorem unsubscribe_removes_and_absent_noop (h : Hub) (socketId : SocketId) (a : JSVal) :
    ∃ o, unsubscribeCallEvents h socketId (.obj a) = .ok o ∧
      socketId ∉ o.hub.members (accountRoom a) ∧
      (socketId ∉ h.members (accountRoom a) → o.hub = h) := by
  refine ⟨_, unsubscribeCallEvents_obj _ _ _, ?_, ?_⟩
  · simp [Hub.mem_members, Hub.mem_leave]
  · intro hne
    rw [Hub.mem_members] at hne
    exact Hub.leave_of_not_mem _ _ _ hne

theorem unsubscribe_removes_and_absent_noop_witness :
    ∃ o, unsubscribeCallEvents {("s2", "account:acme")} "s1" (.obj (.str "acme")) = .ok o ∧
      o.hub = {("s2", "account:acme")} := by
  obtain ⟨o, ho, _, hsame⟩ :=
    unsubscribe_removes_and_absent_noop {("s2", "account:acme")} "s1" (.str "acme")
  refine ⟨o, ho, hsame ?_⟩
  simp [Hub.mem_members]

/-! ## The acknowledgment of a well-formed subscribe (C4) -/

/-- C4: for every subscribe message with a non-empty account identifier the
handler returns, the messages it emits are exactly one `'subscribed'`
acknowledgment, addressed to the subscribing connection, whose `accountId` is
the requested identifier, whose success flag is `true` and whose timestamp is
the current time; afterwards the connection is a member of the account's
room. -/
theorem subscribe_wellformed_ack (h : Hub) (socketId : SocketId) (now : String)
    (accountId : String) (hne : accountId ≠ "") :
    ∃ o, subscribeCallEvents h socketId now (.obj (.str accountId)) = .ok o ∧
      o.emitted = [⟨socketId, "subscribed", ⟨true, .str accountId, now⟩⟩] ∧
      socketId ∈ o.hub.members ("account:" ++ accountId) := by
  have _ := hne
  refine ⟨_, subscribeCallEvents_obj _ _ _ _, rfl, ?_⟩
  rw [Hub.mem_members, Hub.mem_join]
  exact Or.inl rfl

theorem subscribe_wellformed_ack_witness :
    "acme" ≠ "" ∧
    ∃ o, subscribeCallEvents ∅ "s1" "2024-01-01T00:00:00.000Z" (.obj (.str "acme")) = .ok o ∧
      o.emitted =
        [⟨"s1", "subscribed", ⟨true, .str "acme", "2024-01-01T00:00:00.000Z"⟩⟩] ∧
      "s1" ∈ o.hub.members ("account:" ++ "acme") :=
  ⟨by decide, subscribe_wellformed_ack ∅ "s1" "2024-01-01T00:00:00.000Z" "acme" (by decide)⟩

/-! ## Disconnect (C5) -/

theorem accountRoom_str_injective (a b : String)
    (hab : accountRoom (.str a) = accountRoom (.str b)) : a = b := by
  simp only [accountRoom_str] at hab
  have hdata := congrArg String.data hab
  simp only [String.data_append] at hdata
  exact String.ext (List.append_cancel_left hdata)

theorem receivers_publish {P : Type} (h : Hub) (now accountId : String) (payload : P) :
    receivers (publish h now accountId payload) =
      (h.members (accountRoom (.str accountId))).val := by
  simp [receivers, publish]

theorem count_receivers_publish {P : Type} (h : Hub) (now accountId : String) (payload : P)
    (id : SocketId) :
    (receivers (publish h now accountId payload)).count id =
      if (id, accountRoom (.str accountId)) ∈ h then 1 else 0 := by
  rw [receivers_publish, Multiset.count_eq_of_nodup (Finset.nodup _)]
  simp only [Finset.mem_val, Hub.mem_members]

theorem onDisconnect_hub (h : Hub) (socketId : SocketId) :
    (onDisconnect h socketId).hub = h.leaveAll socketId :=
  rfl

/-- C5: for every connection and every membership state, after the disconnect
handling of the connection it is a member of no room, and a later publish to
any account reaches it zero times; in particular, after the connection has
subscribed to the same account twice in a row, one disconnect removes it from
that account's room, and when the table was empty before, a later publish to
that account delivers to nobody. -/
theorem onDisconnect_leaves_every_room {P : Type} (h : Hub) (socketId : SocketId) :
    (onDisconnect h socketId).hub.roomsOf socketId = ∅ ∧
    (∀ room, socketId ∉ (onDisconnect h socketId).hub.members room) ∧
    (∀ (now accountId : String) (payload : P),
      (receivers (publish (onDisconnect h socketId).hub now accountId payload)).count
        socketId = 0) ∧
    (∀ (t₁ t₂ : String) (a : JSVal), ∃ o₁ o₂,
      subscribeCallEvents h socketId t₁ (.obj a) = .ok o₁ ∧
      subscribeCallEvents o₁.hub socketId t₂ (.obj a) = .ok o₂ ∧
      socketId ∉ (onDisconnect o₂.hub socketId).hub.members (accountRoom a)) ∧
    (∀ (t₁ t₂ now accountId : String) (payload : P), ∃ o₁ o₂,
      subscribeCallEvents ∅ socketId t₁ (.obj (.str accountId)) = .ok o₁ ∧
      subscribeCallEvents o₁.hub socketId t₂ (.obj (.str accountId)) = .ok o₂ ∧
      publish (onDisconnect o₂.hub socketId).hub now accountId payload = 0) := by
  have hnot : ∀ (g : Hub) (room : Room), socketId ∉ (onDisconnect g socketId).hub.members room := by
    intro g room
    simp [onDisconnect_hub, Hub.mem_members, Hub.mem_leaveAll]
  refine ⟨?_, hnot h, ?_, ?_, ?_⟩
  · ext room
    simp [onDisconnect_hub, Hub.mem_roomsOf, Hub.mem_leaveAll]
  · intro now accountId payload
    rw [count_receivers_publish, if_neg]
    simp [onDisconnect_hub, Hub.mem_leaveAll]
  · intro t₁ t₂ a
    exact ⟨_, _, subscribeCallEvents_obj _ _ _ _, subscribeCallEvents_obj _ _ _ _, hnot _ _⟩
  · intro t₁ t₂ now accountId payload
    refine ⟨_, _, subscribeCallEvents_obj _ _ _ _, subscribeCallEvents_obj _ _ _ _, ?_⟩
    have hempty : (onDisconnect ((Hub.join ∅ socketId (accountRoom (.str accountId))).join
        socketId (accountRoom (.str accountId))) socketId).hub = ∅ := by
      ext e
      simp only [onDisconnect_hub, Hub.mem_leaveAll, Hub.mem_join, Finset.not_mem_empty,
        or_false, iff_false, not_and, not_not]
      rintro (rfl | rfl) <;> rfl
    simp only [hempty]
    rfl

/-! ## Publish (C6) -/

/-- C6: for every membership state, account identifier and payload, a publish
reaches every connection that is a member of the account's room exactly once
and every other connection not at all; each message delivered carries the
account identifier and the payload; a connection whose only room is that of a
different account receives nothing; and a publish to a room without members
returns the empty collection of deliveries. -/
theorem publish_delivers_exactly_to_members {P : Type} (h : Hub) (now accountId : String)
    (payload : P) :
    (∀ id, (receivers (publish h now accountId payload)).count id =
      if id ∈ h.members (accountRoom (.str accountId)) then 1 else 0) ∧
    (∀ d ∈ publish h now accountId payload,
      d.accountId = accountId ∧ d.payload = payload ∧
        d.recipient ∈ h.members (accountRoom (.str accountId))) ∧
    (∀ (id : SocketId) (other : String), other ≠ accountId →
      h.roomsOf id = {accountRoom (.str other)} →
      (receivers (publish h now accountId payload)).count id = 0) ∧
    (h.members (accountRoom (.str accountId)) = ∅ →
      publish h now accountId payload = 0) := by
  refine ⟨?_, ?_, ?_, ?_⟩
  · intro id
    rw [count_receivers_publish]
    simp only [Hub.mem_members]
  · intro d hd
    simp only [publish, Multiset.mem_map, Finset.mem_val] at hd
    obtain ⟨c, hc, rfl⟩ := hd
    exact ⟨rfl, rfl, hc⟩
  · intro id other hother hrooms
    rw [count_receivers_publish, if_neg]
    intro hmem
    have hin : accountRoom (.str accountId) ∈ h.roomsOf id := (Hub.mem_roomsOf _ _ _).2 hmem
    rw [hrooms, Finset.mem_singleton] at hin
    exact hother (accountRoom_str_injective _ _ hin).symm
  · intro hempty
    simp [publish, hempty]

theorem publish_delivers_exactly_to_members_witness :
    "beta" ≠ "acme" ∧
    Hub.roomsOf {("c1", "account:acme"), ("c2", "account:beta")} "c2" =
      {accountRoom (.str "beta")} ∧
    (receivers (publish {("c1", "account:acme"), ("c2", "account:beta")} "t0" "acme"
      (1 : Nat))).count "c2" = 0 := by
  have hrooms : Hub.roomsOf {("c1", "account:acme"), ("c2", "account:beta")} "c2" =
      {accountRoom (.str "beta")} := by
    decide
  exact ⟨by decide, hrooms,
    (publish_delivers_exactly_to_members {("c1", "account:acme"), ("c2", "account:beta")}
      "t0" "acme" (1 : Nat)).2.2.1 "c2" "beta" (by decide) hrooms⟩

/-! ## The error-handling middleware (C8, C9) -/

/-- C8: for every error passed to the error-handling middleware, when
`NODE_ENV` is `'production'` the message of the response body is the fixed
string `'Internal server error'`, so two errors that differ only in their
message get the same response message (indeed the same response); when
`NODE_ENV` is anything else, or not set, the message of the response body is
the message of the error. -/
theorem errorHandler_message (nodeEnv : Option String) (now path : String) (err : ErrorValue) :
    (nodeEnv = some "production" →
      (errorHandler nodeEnv now path err).1.error.message = .str "Internal server error") ∧
    (nodeEnv = some "production" → ∀ m : JSVal,
      (errorHandler nodeEnv now path ⟨m, err.status, err.stack⟩).1 =
        (errorHandler nodeEnv now path err).1) ∧
    (nodeEnv ≠ some "production" →
      (errorHandler nodeEnv now path err).1.error.message = err.message) := by
  refine ⟨?_, ?_, ?_⟩
  · intro hprod
    simp [errorHandler, hprod]
  · intro hprod m
    simp [errorHandler, hprod]
  · intro hdev
    simp [errorHandler, hdev]

theorem errorHandler_message_witness :
    (errorHandler (some "production") "t0" "/api/v1/calls"
        ⟨.str "connect ECONNREFUSED 10.0.0.5:5432", .num 503 (by decide), .undefined⟩).1.error.message =
      .str "Internal server error" ∧
    (errorHandler (some "development") "t0" "/api/v1/calls"
        ⟨.str "connect ECONNREFUSED 10.0.0.5:5432", .num 503 (by decide), .undefined⟩).1.error.message =
      .str "connect ECONNREFUSED 10.0.0.5:5432" :=
  ⟨(errorHandler_message (some "production") "t0" "/api/v1/calls"
      ⟨.str "connect ECONNREFUSED 10.0.0.5:5432", .num 503 (by decide), .undefined⟩).1 rfl,
    (errorHandler_message (some "development") "t0" "/api/v1/calls"
      ⟨.str "connect ECONNREFUSED 10.0.0.5:5432", .num 503 (by decide), .undefined⟩).2.2 (by decide)⟩

/-- The argument of `res.status` and the status field of the body handed to
`res.json` are the same value, `err.status || 500`. -/
theorem errorHandler_call_status (nodeEnv : Option String) (now path : String)
    (err : ErrorValue) :
    (errorHandler nodeEnv now path err).1.status =
        (if err.status.truthy then err.status else .num 500 (by decide)) ∧
      (errorHandler nodeEnv now path err).1.error.status =
        (errorHandler nodeEnv now path err).1.status :=
  ⟨rfl, rfl⟩

theorem toInt32_of_valid (stringToInt32 : String → Int) (n : Int) (hsafe : n.natAbs < 2 ^ 53)
    (hlo : 100 ≤ n) (hhi : n ≤ 999) : (JSVal.num n hsafe).toInt32 stringToInt32 = n := by
  simp only [JSVal.toInt32]
  omega

/-- C9, as stated, fails: for an error whose status is 42, which is truthy, the
middleware calls `res.status(42).json(...)`, Node rejects the status code and
the call throws; the client receives the status code 500, not 42, and no JSON
error body. -/
theorem errorResponse_invalid_status_counterexample :
    JSVal.truthy (.num 42 (by decide)) = true ∧
    (errorHandler none "t0" "/health" ⟨.str "boom", .num 42 (by decide), .undefined⟩).1.status =
      .num 42 (by decide) ∧
    errorResponse (fun _ => 0) none "t0" "/health"
      ⟨.str "boom", .num 42 (by decide), .undefined⟩ = .uncaught ∧
    (errorResponse (fun _ => 0) none "t0" "/health"
      ⟨.str "boom", .num 42 (by decide), .undefined⟩).statusCode = 500 ∧
    (errorResponse (fun _ => 0) none "t0" "/health"
      ⟨.str "boom", .num 42 (by decide), .undefined⟩).error? = none := by
  refine ⟨by decide, rfl, ?_, ?_, ?_⟩ <;> decide

/-- C9, amended: for every error passed to the error-handling middleware whose
status is falsy or is an integer from 100 to 999, a valid HTTP status code,
the call `res.status(...).json(...)` does not throw, the HTTP status code of
the response equals the status field inside the JSON error body, and both
equal the status of the error when that is truthy and 500 otherwise. -/
theorem errorResponse_status (stringToInt32 : String → Int) (nodeEnv : Option String)
    (now path : String) (err : ErrorValue)
    (hvalid : err.status.truthy = false ∨
      ∃ (n : Int) (hsafe : n.natAbs < 2 ^ 53),
        err.status = .num n hsafe ∧ 100 ≤ n ∧ n ≤ 999) :
    ∃ (code : Int) (hsafe : code.natAbs < 2 ^ 53) (body : ErrorBody),
      errorResponse stringToInt32 nodeEnv now path err = .json code body ∧
      body = (errorHandler nodeEnv now path err).1.error ∧
      body.status = .num code hsafe ∧
      body.status = (if err.status.truthy then err.status else .num 500 (by decide)) := by
  rcases hvalid with hfalsy | ⟨n, hsafe, hstatus, hlo, hhi⟩
  · refine ⟨500, by decide, (errorHandler nodeEnv now path err).1.error, ?_, rfl, ?_, rfl⟩
    · have hcall : (errorHandler nodeEnv now path err).1.status = .num 500 (by decide) := by
        rw [(errorHandler_call_status nodeEnv now path err).1, hfalsy]
        rfl
      simp only [errorResponse, sendJson, hcall]
      rfl
    · rw [(errorHandler_call_status nodeEnv now path err).2,
        (errorHandler_call_status nodeEnv now path err).1, hfalsy]
      rfl
  · have htruthy : err.status.truthy = true := by
      rw [hstatus]
      simp only [JSVal.truthy, bne_iff_ne, ne_eq]
      omega
    have hcall : (errorHandler nodeEnv now path err).1.status = .num n hsafe := by
      rw [(errorHandler_call_status nodeEnv now path err).1, htruthy, hstatus]
      rfl
    refine ⟨n, hsafe, (errorHandler nodeEnv now path err).1.error, ?_, rfl, ?_, ?_⟩
    · simp only [errorResponse, sendJson, hcall, toInt32_of_valid stringToInt32 n hsafe hlo hhi]
      rw [if_pos ⟨hlo, hhi⟩]
    · rw [(errorHandler_call_status nodeEnv now path err).2, hcall]
    · rfl

theorem errorResponse_status_witness :
    ∃ (code : Int) (hsafe : code.natAbs < 2 ^ 53) (body : ErrorBody),
      errorResponse (fun _ => 0) none "t0" "/api/v1/calls"
        ⟨.str "gone", .num 404 (by decide), .undefined⟩ = .json code body ∧
      body = (errorHandler none "t0" "/api/v1/calls"
        ⟨.str "gone", .num 404 (by decide), .undefined⟩).1.error ∧
      body.status = .num code hsafe ∧
      body.status =
        (if JSVal.truthy (.num 404 (by decide)) then .num 404 (by decide)
          else .num 500 (by decide)) :=
  errorResponse_status (fun _ => 0) none "t0" "/api/v1/calls"
    ⟨.str "gone", .num 404 (by decide), .undefined⟩
    (Or.inr ⟨404, by decide, rfl, by decide, by decide⟩)

/-! ## The page search (C10) -/

/-- The `forEach` loop of `performSearch` appends to the results so far one
result per matching section, in the order of the sections. -/
theorem foldl_pushIfMatch (toLowerCase : DOMString → DOMString) (query : DOMString)
    (sections : List Element) (results : List SearchResult) :
    sections.foldl (pushIfMatch toLowerCase query) results =
      results ++
        (sections.filter (fun s => includes (toLowerCase s.textContent) query)).map
          (fun s =>
            ⟨if startsWithH s.tagName then s.textContent else getHeadingContext s,
              substring0 s.textContent 150 ++ utf16 "...", s⟩) := by
  induction sections generalizing results with
  | nil => simp
  | cons s rest ih =>
    rw [List.foldl_cons, ih]
    by_cases hs : includes (toLowerCase s.textContent) query = true
    · simp [pushIfMatch, hs]
    · simp [pushIfMatch, hs]

/-- C10: for every page and every query, `performSearch` returns at most 5
results, as many as the smaller of 5 and the number of sections whose
lower-cased text contains the query; the elements of the results are exactly
the first of those sections, in document order; and the content of each result
is the first 150 code units of the text of its element followed by `...`. -/
theorem performSearch_first_five_matches (toLowerCase : DOMString → DOMString)
    (sections : List Element) (query : DOMString) :
    (performSearch toLowerCase sections query).length ≤ 5 ∧
    (performSearch toLowerCase sections query).length =
      min 5 (sections.filter (fun s => decide (query <:+: toLowerCase s.textContent))).length ∧
    (performSearch toLowerCase sections query).map (fun r => r.element) =
      (sections.filter (fun s => decide (query <:+: toLowerCase s.textContent))).take 5 ∧
    (performSearch toLowerCase sections query).map (fun r => r.content) =
      ((sections.filter (fun s => decide (query <:+: toLowerCase s.textContent))).take 5).map
        (fun s => s.textContent.take 150 ++ [46, 46, 46]) := by
  have hrun : performSearch toLowerCase sections query =
      ((sections.filter (fun s => decide (query <:+: toLowerCase s.textContent))).take 5).map
        (fun s =>
          (⟨if startsWithH s.tagName then s.textContent else getHeadingContext s,
            substring0 s.textContent 150 ++ utf16 "...", s⟩ : SearchResult)) := by
    unfold performSearch
    simp only [foldl_pushIfMatch, List.nil_append, List.map_take]
    rfl
  have hdots : utf16 "..." = [46, 46, 46] := by decide
  rw [hrun]
  refine ⟨?_, ?_, ?_, ?_⟩
  · simp [List.length_take]
  · simp [List.length_take]
  · simp [List.map_map, Function.comp_def]
  · simp [List.map_map, Function.comp_def, substring0, hdots]

/-! ## The table of contents (C11) -/

theorem utf16_heading_ne_nil (index : Nat) : utf16 ("heading-" ++ toString index) ≠ [] := by
  have hdata : ("heading-" ++ toString index).toList =
      'h' :: ("eading-" ++ toString index).toList := by
    simp only [String.toList, String.data_append]
    rfl
  simp [utf16, hdata]

theorem tocCallback_id_ne_nil (toLowerCase : String → String) (heading : Heading)
    (index : Nat) : (tocCallback toLowerCase heading index).1.id ≠ [] := by
  unfold tocCallback
  by_cases hid : heading.id = []
  · simpa [hid] using utf16_heading_ne_nil index
  · simp [hid]

theorem tocForEach_length (toLowerCase : String → String) (headings : List Heading)
    (index : Nat) :
    (tocForEach toLowerCase headings index).1.length = headings.length ∧
      (tocForEach toLowerCase headings index).2.length = headings.length := by
  induction headings generalizing index with
  | nil => exact ⟨rfl, rfl⟩
  | cons heading rest ih =>
    simp only [tocForEach, List.length_cons, (ih (index + 1)).1, (ih (index + 1)).2,
      and_self]

theorem tocForEach_getElem? (toLowerCase : String → String) (headings : List Heading)
    (index i : Nat) :
    (tocForEach toLowerCase headings index).1[i]? =
        (headings[i]?).map (fun h => (tocCallback toLowerCase h (index + i)).1) ∧
      (tocForEach toLowerCase headings index).2[i]? =
        (headings[i]?).map (fun h => (tocCallback toLowerCase h (index + i)).2) := by
  induction headings generalizing index i with
  | nil => simp [tocForEach]
  | cons heading rest ih =>
    cases i with
    | zero => simp [tocForEach]
    | succ j =>
      have hidx : index + 1 + j = index + (j + 1) := by omega
      simp only [tocForEach, List.getElem?_cons_succ, (ih (index + 1) j).1,
        (ih (index + 1) j).2, hidx, and_self]

/-- C11, as stated, fails: on a page that has no element with id `toc`, whose
main content holds one `h2` without an id, `generateTOC` returns at its first
guard: no list is built and the heading still has the empty id. -/
theorem generateTOC_without_toc_counterexample :
    (generateTOC String.toLower ⟨none, some [⟨"H2", [], utf16 "Overview"⟩], none⟩).toc = none ∧
    (generateTOC String.toLower ⟨none, some [⟨"H2", [], utf16 "Overview"⟩], none⟩).headings =
      some [⟨"H2", [], utf16 "Overview"⟩] :=
  ⟨rfl, rfl⟩

/-- C11, amended: for every page that has an element with id `toc`, and every
list of `h2`/`h3` headings in the main content, `generateTOC` appends to that
element one list of class `toc-list` with exactly one entry per heading, in
document order; a heading that has a non-empty id keeps it and a heading
without one is given the id `heading-<its index>`; afterwards every heading has
a non-empty id, and the i-th entry links to `#` followed by the id of the i-th
heading, carries the text of the heading, and has the lower-cased tag name of
the heading as its class. -/
theorem generateTOC_entries (toLowerCase : String → String) (doc : TocDocument)
    (tocContainer : List TocList) (headings : List Heading)
    (htoc : doc.toc = some tocContainer) (hmain : doc.headings = some headings) :
    ∃ (after : List Heading) (entries : List TocEntry),
      (generateTOC toLowerCase doc).toc = some (tocContainer ++ [⟨"toc-list", entries⟩]) ∧
      (generateTOC toLowerCase doc).headings = some after ∧
      entries.length = headings.length ∧
      after.length = headings.length ∧
      (∀ h ∈ after, h.id ≠ []) ∧
      ∀ (i : Nat) (h : Heading), headings[i]? = some h →
        ∃ (h' : Heading) (e : TocEntry), after[i]? = some h' ∧ entries[i]? = some e ∧
          h'.tagName = h.tagName ∧ h'.textContent = h.textContent ∧
          (h.id ≠ [] → h'.id = h.id) ∧
          (h.id = [] → h'.id = utf16 ("heading-" ++ toString i)) ∧
          e.href = utf16 "#" ++ h'.id ∧
          e.textContent = h.textContent ∧
          e.className = toLowerCase h.tagName := by
  refine ⟨(tocForEach toLowerCase headings 0).1, (tocForEach toLowerCase headings 0).2,
    ?_, ?_, (tocForEach_length _ _ _).2, (tocForEach_length _ _ _).1, ?_, ?_⟩
  · obtain ⟨toc, mainContent, docsMain⟩ := doc
    cases mainContent with
    | some hs =>
      simp only [TocDocument.headings, Option.some.injEq] at hmain
      simp only at htoc
      subst hmain htoc
      rfl
    | none =>
      simp only [TocDocument.headings] at hmain
      simp only at htoc
      subst hmain htoc
      rfl
  · obtain ⟨toc, mainContent, docsMain⟩ := doc
    cases mainContent with
    | some hs =>
      simp only [TocDocument.headings, Option.some.injEq] at hmain
      simp only at htoc
      subst hmain htoc
      rfl
    | none =>
      simp only [TocDocument.headings] at hmain
      simp only at htoc
      subst hmain htoc
      rfl
  · intro h hmem
    obtain ⟨i, hi⟩ := List.getElem?_of_mem hmem
    rw [(tocForEach_getElem? toLowerCase headings 0 i).1] at hi
    cases hget : headings[i]? with
    | none => simp [hget] at hi
    | some g =>
      simp only [hget, Option.map_some', Option.some.injEq] at hi
      rw [← hi]
      exact tocCallback_id_ne_nil _ _ _
  · intro i h hget
    refine ⟨(tocCallback toLowerCase h i).1, (tocCallback toLowerCase h i).2, ?_, ?_, ?_⟩
    · simp [(tocForEach_getElem? toLowerCase headings 0 i).1, hget]
    · simp [(tocForEach_getElem? toLowerCase headings 0 i).2, hget]
    · unfold tocCallback
      by_cases hid : h.id = []
      · simp [hid]
      · simp [hid]

theorem generateTOC_entries_witness :
    ∃ (after : List Heading) (entries : List TocEntry),
      (generateTOC String.toLower
          ⟨some [], some [⟨"H2", utf16 "intro", utf16 "Intro"⟩, ⟨"H3", [], utf16 "Setup"⟩],
            none⟩).toc = some ([] ++ [⟨"toc-list", entries⟩]) ∧
      after[1]? = some ⟨"H3", utf16 "heading-1", utf16 "Setup"⟩ ∧
      entries[1]? = some ⟨String.toLower "H3", utf16 "#heading-1", utf16 "Setup"⟩ := by
  obtain ⟨after, entries, htoc, _, _, _, _, hall⟩ :=
    generateTOC_entries String.toLower
      ⟨some [], some [⟨"H2", utf16 "intro", utf16 "Intro"⟩, ⟨"H3", [], utf16 "Setup"⟩], none⟩
      [] [⟨"H2", utf16 "intro", utf16 "Intro"⟩, ⟨"H3", [], utf16 "Setup"⟩] rfl rfl
  obtain ⟨h', e, hafter, hentry, htag, htext, _, hnew, hhref, hetext, hclass⟩ :=
    hall 1 ⟨"H3", [], utf16 "Setup"⟩ rfl
  have hid : h'.id = utf16 ("heading-" ++ toString 1) := hnew rfl
  refine ⟨after, entries, htoc, ?_, ?_⟩
  · rw [hafter]
    obtain ⟨tag, id, text⟩ := h'
    simp only at htag htext hid
    rw [htag, htext, hid]
    rfl
  · rw [hentry]
    obtain ⟨cls, href, text⟩ := e
    simp only at hhref hetext hclass
    rw [hhref, hetext, hclass, hid]
    rfl

/-! ## Per-account isolation of membership changes (C12) -/

theorem Hub.members_join_of_ne (h : Hub) (id : SocketId) (room other : Room)
    (hne : room ≠ other) : (h.join id room).members other = h.members other := by
  ext c
  simp only [Hub.mem_members, Hub.mem_join, Prod.mk.injEq]
  constructor
  · rintro (⟨_, hroom⟩ | hmem)
    · exact absurd hroom.symm hne
    · exact hmem
  · exact Or.inr

theorem Hub.members_leave_of_ne (h : Hub) (id : SocketId) (room other : Room)
    (hne : room ≠ other) : (h.leave id room).members other = h.members other := by
  ext c
  simp only [Hub.mem_members, Hub.mem_leave, ne_eq, Prod.mk.injEq, not_and]
  constructor
  · exact fun hmem => hmem.2
  · exact fun hmem => ⟨fun _ hroom => hne hroom.symm, hmem⟩

theorem Hub.mem_members_join_other (h : Hub) (id other : SocketId) (room : Room)
    (hne : other ≠ id) : other ∈ (h.join id room).members room ↔ other ∈ h.members room := by
  simp only [Hub.mem_members, Hub.mem_join, Prod.mk.injEq]
  constructor
  · rintro (⟨hid, _⟩ | hmem)
    · exact absurd hid hne
    · exact hmem
  · exact Or.inr

theorem Hub.mem_members_leave_other (h : Hub) (id other : SocketId) (room : Room)
    (hne : other ≠ id) : other ∈ (h.leave id room).members room ↔ other ∈ h.members room := by
  simp only [Hub.mem_members, Hub.mem_leave, ne_eq, Prod.mk.injEq, not_and]
  constructor
  · exact fun hmem => hmem.2
  · exact fun hmem => ⟨fun hid => absurd hid hne, hmem⟩

/-- The template literal converts its argument to a string, so an identifier
that is not a string shares its room with the string it converts to. -/
theorem accountRoom_undefined_eq : accountRoom .undefined = accountRoom (.str "undefined") :=
  rfl

theorem accountRoom_eq_iff (a b : JSVal) : accountRoom a = accountRoom b ↔ a.toStr = b.toStr := by
  constructor
  · intro hab
    have hdata := congrArg String.data hab
    simp only [accountRoom, String.data_append] at hdata
    exact String.ext (List.append_cancel_left hdata)
  · intro hab
    simp only [accountRoom, hab]

/-- C12, as stated, fails: the number 42 and the string `'42'` are distinct
account identifiers with the same room key `account:42`, so on an empty table
the subscribe handler for the number 42 puts the connection into the room of
the string `'42'`, whose membership is not what it was. -/
theorem subscribe_changes_other_account_counterexample :
    JSVal.num 42 (by decide) ≠ JSVal.str "42" ∧
    accountRoom (.num 42 (by decide)) = accountRoom (.str "42") ∧
    ∃ o, subscribeCallEvents ∅ "c1" "t0" (.obj (.num 42 (by decide))) = .ok o ∧
      "c1" ∈ o.hub.members (accountRoom (.str "42")) ∧
      "c1" ∉ Hub.members ∅ (accountRoom (.str "42")) ∧
      o.hub.members (accountRoom (.str "42")) ≠ Hub.members ∅ (accountRoom (.str "42")) := by
  have hin : "c1" ∈ (Hub.join ∅ "c1" (accountRoom (.num 42 (by decide)))).members
      (accountRoom (.str "42")) := by
    rw [Hub.mem_members, Hub.mem_join]
    exact Or.inl rfl
  have hout : "c1" ∉ Hub.members ∅ (accountRoom (.str "42")) := by
    simp [Hub.mem_members]
  refine ⟨by decide, rfl, _, subscribeCallEvents_obj _ _ _ _, hin, hout, ?_⟩
  intro heq
  exact hout (heq ▸ hin)

/-- C12, amended: for every connection and every two account identifiers A and
B whose string forms, as the template literal converts them, are distinct (in
particular any two distinct strings), the rooms of A and B are distinct, the
subscribe handler and the unsubscribe handler for A both return, and each of
them leaves the members of the room of B as they were and leaves the
membership of every other connection in the room of A as it was. -/
theorem subscribe_unsubscribe_account_isolation (h : Hub) (socketId : SocketId)
    (now : String) (accountA accountB : JSVal) (hAB : accountA.toStr ≠ accountB.toStr) :
    accountRoom accountA ≠ accountRoom accountB ∧
    (∃ o, subscribeCallEvents h socketId now (.obj accountA) = .ok o ∧
      o.hub.members (accountRoom accountB) = h.members (accountRoom accountB) ∧
      ∀ other, other ≠ socketId →
        (other ∈ o.hub.members (accountRoom accountA) ↔
          other ∈ h.members (accountRoom accountA))) ∧
    (∃ o, unsubscribeCallEvents h socketId (.obj accountA) = .ok o ∧
      o.hub.members (accountRoom accountB) = h.members (accountRoom accountB) ∧
      ∀ other, other ≠ socketId →
        (other ∈ o.hub.members (accountRoom accountA) ↔
          other ∈ h.members (accountRoom accountA))) ∧
    (∀ s t : String, s ≠ t → (JSVal.str s).toStr ≠ (JSVal.str t).toStr) := by
  have hrooms : accountRoom accountA ≠ accountRoom accountB :=
    fun heq => hAB ((accountRoom_eq_iff _ _).1 heq)
  refine ⟨hrooms, ⟨_, subscribeCallEvents_obj _ _ _ _, ?_, ?_⟩,
    ⟨_, unsubscribeCallEvents_obj _ _ _, ?_, ?_⟩, fun s t hst => hst⟩
  · exact Hub.members_join_of_ne _ _ _ _ hrooms
  · exact fun other hne => Hub.mem_members_join_other _ _ _ _ hne
  · exact Hub.members_leave_of_ne _ _ _ _ hrooms
  · exact fun other hne => Hub.mem_members_leave_other _ _ _ _ hne

theorem subscribe_unsubscribe_account_isolation_witness :
    (JSVal.str "acme").toStr ≠ (JSVal.num 42 (by decide)).toStr ∧
    ∃ o, subscribeCallEvents {("c2", "account:42"), ("c3", "account:acme")} "c1" "t0"
        (.obj (.str "acme")) = .ok o ∧
      o.hub.members (accountRoom (.num 42 (by decide))) =
        Hub.members {("c2", "account:42"), ("c3", "account:acme")}
          (accountRoom (.num 42 (by decide))) :=
  ⟨by decide,
    (subscribe_unsubscribe_account_isolation {("c2", "account:42"), ("c3", "account:acme")}
      "c1" "t0" (.str "acme") (.num 42 (by decide)) (by decide)).2.1.imp
      fun _ ho => ⟨ho.1, ho.2.1⟩⟩

end AlianzaDocs
